import Mathlib

/-!
Shallow embedding of the Expense-app backend (Express + Mongoose):
  - the `Expense` document schema (models/Expense.js),
  - the access-control middleware (middleware/auth.js),
  - the expense route handlers (routes/expenses.js).

Conventions of the embedding:
  - the Mongo collection is a `List Expense`; `findById` scans by `eid`;
  - user/object identifiers are `String`s (ObjectIds compared via toString);
  - dates/timestamps are `Int` (milliseconds since epoch);
  - JS ``amount`` values are `Rat`;
  - roles, statuses, categories and currencies are `String`s, as in the JS
    code, with the enum lists copied from the source;
  - request bodies carry the value express-validator would see for each
    field: `Option String` for plain text fields (a missing field reads as
    the empty string after the `toString` coercion), and small inductive
    types recording the outcome of the external parsers (float parsing for
    `amount`, ISO-8601 parsing for `expenseDate`, JSON.parse for a
    serialized `vendor`), since those parsers live in external libraries.
-/

namespace ExpenseApp

/-- Role strings used by the app (models/User.js enum). -/
def roleList : List String := ["Employee", "Manager", "Finance"]

/-- The `category` enum from models/Expense.js. -/
def categoryEnum : List String :=
  ["Travel", "Meals", "Office Supplies", "Transportation", "Accommodation",
   "Entertainment", "Training", "Software", "Equipment", "Other"]

/-- The `currency` enum from models/Expense.js. -/
def currencyEnum : List String := ["USD", "EUR", "GBP", "INR", "CAD", "AUD"]

/-- The `status` enum from models/Expense.js. -/
def statusEnum : List String := ["Pending", "Approved", "Rejected", "Under Review"]

/-- The target statuses accepted by the PUT /:id/status validator
(routes/expenses.js line 185). -/
def reviewTargets : List String := ["Approved", "Rejected", "Under Review"]

/-- Vendor subdocument (models/Expense.js `vendor`). -/
structure Vendor where
  name : String
  contact : Option String := none
  address : Option String := none
deriving Repr, DecidableEq

/-- Invoice metadata subdocument (models/Expense.js `invoice`). -/
structure Invoice where
  filename : String
  originalName : String
  path : String
  size : Nat
  mimetype : String
deriving Repr, DecidableEq

/-- An `Expense` document (models/Expense.js). -/
structure Expense where
  eid : Nat
  title : String
  category : String
  amount : Rat
  currency : String
  description : String
  vendor : Vendor
  invoice : Invoice
  submittedBy : String
  status : String
  reviewedBy : Option String
  reviewComments : Option String
  submittedDate : Int
  reviewedDate : Option Int
  expenseDate : Int
deriving Repr, DecidableEq

/-- The authenticated identity resolved by the `protect` middleware. -/
structure User where
  uid : String
  role : String
deriving Repr, DecidableEq

/-- Model of `Expense.findById`: Mongo lookup by identifier. -/
def findById (db : List Expense) (eid : Nat) : Option Expense :=
  db.find? (fun e => e.eid == eid)

/-- The `authorize(...roles)` middleware: role-membership check
(middleware/auth.js lines 40-54). -/
def roleAllowed (roles : List String) (u : User) : Bool :=
  roles.contains u.role

/-- Outcome of the `canAccessExpense` middleware. -/
inductive AccessResult
  | allow
  | notFound
  | forbidden
deriving Repr, DecidableEq

/-- Model of `canAccessExpense` (middleware/auth.js lines 57-85): Manager/Finance
are allowed unconditionally; an Employee triggers a load of the expense,
404 when absent, 403 when `submittedBy` differs from the caller. -/
def canAccessExpense (db : List Expense) (u : User) (eid : Nat) : AccessResult :=
  if u.role == "Manager" || u.role == "Finance" then
    .allow
  else
    match findById db eid with
    | none => .notFound
    | some e =>
      if e.submittedBy != u.uid then .forbidden else .allow

/-! ## Expense submission: POST / (routes/expenses.js lines 49-110) -/

/-- The `amount` field of the multipart body as express-validator and
`parseFloat` see it: a string that parses to a number `q`, a string that is
not numeric, or an absent field. The float parser itself lives in the
external validator library; the embedding carries its outcome. -/
inductive NumField
  | num (q : Rat)
  | notNum
  | absent
deriving Repr, DecidableEq

/-- The `expenseDate` field: an ISO-8601 string denoting timestamp `d`,
a present but unparsable string, or an absent field. -/
inductive DateField
  | valid (d : Int)
  | invalid
  | absent
deriving Repr, DecidableEq

/-- The `vendor` field of the multipart body. It arrives either as a
structured object (bracketed form field names assembled by multer), as a
serialized string (`serialized s p` where `p` is the result of
`JSON.parse s` interpreted as a vendor object, `none` on parse failure),
or not at all. -/
inductive VendorField
  | structured (v : Vendor)
  | serialized (s : String) (parsed : Option Vendor)
  | absent
deriving Repr, DecidableEq

/-- The value express-validator reads at path `vendor.name`: property
access on a string or on `undefined` yields `undefined`, so only the
structured form exposes a name. -/
def vendorNameField : VendorField → Option String
  | .structured v => some v.name
  | .serialized _ _ => none
  | .absent => none

/-- The request body of POST / as seen after multer parsed the multipart
form. -/
structure SubmitBody where
  title : Option String
  category : Option String
  amount : NumField
  currency : Option String
  description : Option String
  vendor : VendorField
  expenseDate : DateField
deriving Repr, DecidableEq

/-- The file object multer attaches at `req.file`. -/
structure UploadedFile where
  filename : String
  originalname : String
  path : String
  size : Nat
  mimetype : String
deriving Repr, DecidableEq

/-- Executable model of the JS `trim()` used by the validator sanitizers
and the mongoose `trim: true` setters: strip leading and trailing
whitespace. (`String.trim` itself is defined by well-founded recursion on
byte positions, which blocks kernel evaluation, so the embedding works on
the character list directly.) -/
def trimStr (s : String) : String :=
  ⟨((s.data.dropWhile Char.isWhitespace).reverse.dropWhile Char.isWhitespace).reverse⟩

/-- express-validator's view of a possibly-missing text field after the
`trim()` sanitizer: a missing value is coerced to the empty string. -/
def fieldStr (o : Option String) : String := trimStr (o.getD "")

/-- Error message of each submission validator (routes/expenses.js
lines 50-55). -/
def titleMsg : String := "Title is required and must be less than 100 characters"

def categoryMsg : String := "Invalid category"

def amountMsg : String := "Amount must be greater than 0"

def descriptionMsg : String := "Description is required and must be less than 500 characters"

def vendorNameMsg : String := "Vendor name is required"

def expenseDateMsg : String := "Valid expense date is required"

/-- Validator `body('title').trim().isLength({min:1,max:100})`. -/
def titleOk (b : SubmitBody) : Bool :=
  1 ≤ (fieldStr b.title).length && (fieldStr b.title).length ≤ 100

/-- Validator `body('category').isIn(categoryEnum)`. -/
def categoryOk (b : SubmitBody) : Bool :=
  categoryEnum.contains (b.category.getD "")

/-- Validator `body('amount').isFloat({min:0.01})`. -/
def amountOk (b : SubmitBody) : Bool :=
  match b.amount with
  | .num q => mkRat 1 100 ≤ q
  | .notNum => false
  | .absent => false

/-- Validator `body('description').trim().isLength({min:1,max:500})`. -/
def descriptionOk (b : SubmitBody) : Bool :=
  1 ≤ (fieldStr b.description).length && (fieldStr b.description).length ≤ 500

/-- Validator `body('vendor.name').trim().notEmpty()`. -/
def vendorNameOk (b : SubmitBody) : Bool :=
  fieldStr (vendorNameField b.vendor) != ""

/-- Validator `body('expenseDate').isISO8601()`. -/
def expenseDateOk (b : SubmitBody) : Bool :=
  match b.expenseDate with
  | .valid _ => true
  | .invalid => false
  | .absent => false

/-- Model of `validationResult(req).array()`: express-validator runs every chain and
accumulates the failures of all of them, in chain order. -/
def submitValidationErrors (b : SubmitBody) : List String :=
  (if titleOk b then [] else [titleMsg])
  ++ (if categoryOk b then [] else [categoryMsg])
  ++ (if amountOk b then [] else [amountMsg])
  ++ (if descriptionOk b then [] else [descriptionMsg])
  ++ (if vendorNameOk b then [] else [vendorNameMsg])
  ++ (if expenseDateOk b then [] else [expenseDateMsg])

/-- Model of `parseFloat(amount)` on a value the validator accepted; the non-numeric
branches are unreachable once `amountOk` holds. -/
def amountValue : NumField → Rat
  | .num q => q
  | .notNum => 0
  | .absent => 0

/-- Model of `new Date(expenseDate)` on a value the validator accepted. -/
def dateValue : DateField → Int
  | .valid d => d
  | .invalid => 0
  | .absent => 0

/-- The vendor-parse step of the handler (routes/expenses.js lines 79-85):
`typeof vendor === 'string' ? JSON.parse(vendor) : vendor`, with a parse
exception mapped to the 400 "Invalid vendor data format" answer
(`Except.error`). An absent vendor stays `undefined` (`ok none`). -/
def vendorParse : VendorField → Except Unit (Option Vendor)
  | .structured v => .ok (some v)
  | .serialized _ (some v) => .ok (some v)
  | .serialized _ none => .error ()
  | .absent => .ok none

/-- The argument object of `Expense.create` (routes/expenses.js
lines 87-103). -/
structure CreatePayload where
  title : String
  category : String
  amount : Rat
  currency : String
  description : String
  vendor : Option Vendor
  invoice : Invoice
  submittedBy : String
  expenseDate : Int
deriving Repr, DecidableEq

/-- Mongoose `trim: true` setters of the expense schema applied to a
vendor subdocument. -/
def trimVendor (v : Vendor) : Vendor :=
  { name := trimStr v.name, contact := v.contact.map trimStr,
    address := v.address.map trimStr }

/-- The document mongoose builds for `Expense.create`: schema defaults
supply `status: 'Pending'` and `submittedDate: Date.now`; `reviewedBy`,
`reviewedDate` and `reviewComments` have no default and stay absent;
`trim: true` setters run on the string paths. -/
def buildExpense (p : CreatePayload) (v : Vendor) (newId : Nat) (now : Int) : Expense :=
  { eid := newId
    title := trimStr p.title
    category := p.category
    amount := p.amount
    currency := p.currency
    description := trimStr p.description
    vendor := trimVendor v
    invoice := p.invoice
    submittedBy := p.submittedBy
    status := "Pending"
    reviewedBy := none
    reviewComments := none
    submittedDate := now
    reviewedDate := none
    expenseDate := p.expenseDate }

/-- Mongoose schema validation of a built document (models/Expense.js):
required string paths reject the empty string, enum paths reject values
outside their list, `amount` has `min: 0.01`, and `maxlength` bounds hold
for `title` and `description`. -/
def schemaValid (e : Expense) : Bool :=
  e.title != "" && e.title.length ≤ 100
  && categoryEnum.contains e.category
  && mkRat 1 100 ≤ e.amount
  && currencyEnum.contains e.currency
  && e.description != "" && e.description.length ≤ 500
  && e.vendor.name != ""
  && e.invoice.filename != "" && e.invoice.originalName != ""
  && e.invoice.path != "" && e.invoice.mimetype != ""
  && e.submittedBy != ""
  && statusEnum.contains e.status

/-- Fresh identifier for a created document. -/
def freshId (db : List Expense) : Nat := db.length

/-- Model of `Expense.create`: build the document with defaults, run schema
validation, and append it to the collection; a validation failure (or any
store failure) raises, which the route's catch block turns into a 500. -/
def mongooseCreate (db : List Expense) (p : CreatePayload) (now : Int) :
    Except Unit (Expense × List Expense) :=
  match p.vendor with
  | none => .error ()
  | some v =>
    if schemaValid (buildExpense p v (freshId db) now) then
      .ok (buildExpense p v (freshId db) now, db ++ [buildExpense p v (freshId db) now])
    else .error ()

/-- The HTTP outcome of POST / . `validationErrors` is the 400
`{errors: [...]}` shape, `missingFile` the 400 `{message: 'Invoice file is
required'}` shape, `invalidVendorFormat` the 400 `{message: 'Invalid
vendor data format'}` shape, `serverError` the 500 answer, `forbidden` the
401/403 of the auth middleware chain. -/
inductive SubmitResult
  | forbidden
  | validationErrors (errs : List String)
  | missingFile
  | invalidVendorFormat
  | created (e : Expense)
  | serverError
deriving Repr, DecidableEq

/-- The object literal passed to `Expense.create` (routes/expenses.js
lines 87-103): the sanitized body fields, the multer file metadata copied
field by field, and the caller's identifier. -/
def submitPayload (u : User) (b : SubmitBody) (f : UploadedFile)
    (vendorData : Option Vendor) : CreatePayload :=
  { title := fieldStr b.title
    category := b.category.getD ""
    amount := amountValue b.amount
    currency := b.currency.getD "USD"
    description := fieldStr b.description
    vendor := vendorData
    invoice :=
      { filename := f.filename, originalName := f.originalname,
        path := f.path, size := f.size, mimetype := f.mimetype }
    submittedBy := u.uid
    expenseDate := dateValue b.expenseDate }

/-- The POST / handler (routes/expenses.js lines 49-110), returning the
response and the collection after the request. -/
def submitHandler (db : List Expense) (u : User) (b : SubmitBody)
    (file : Option UploadedFile) (now : Int) : SubmitResult × List Expense :=
  if !roleAllowed ["Employee"] u then (.forbidden, db)
  else if submitValidationErrors b ≠ [] then
    (.validationErrors (submitValidationErrors b), db)
  else
    match file with
    | none => (.missingFile, db)
    | some f =>
      match vendorParse b.vendor with
      | .error _ => (.invalidVendorFormat, db)
      | .ok vendorData =>
        match mongooseCreate db (submitPayload u b f vendorData) now with
        | .ok (e, db2) => (.created e, db2)
        | .error _ => (.serverError, db)

/-! ## Status review: PUT /:id/status (routes/expenses.js lines 184-222) -/

/-- The request body of PUT /:id/status. -/
structure ReviewBody where
  status : Option String
  reviewComments : Option String
deriving Repr, DecidableEq

def invalidStatusMsg : String := "Invalid status"

def reviewCommentsMsg : String := "Review comments must be less than 500 characters"

/-- Validator `body('status').isIn(['Approved','Rejected','Under Review'])`. -/
def statusTargetOk (b : ReviewBody) : Bool :=
  reviewTargets.contains (b.status.getD "")

/-- Validator `body('reviewComments').optional().trim().isLength({max:500})`:
`optional()` skips an absent field; a present field is trimmed in place
and its length bounded. -/
def reviewCommentsOk (b : ReviewBody) : Bool :=
  match b.reviewComments with
  | none => true
  | some c => (trimStr c).length ≤ 500

/-- Accumulated validator failures of the review request. -/
def reviewValidationErrors (b : ReviewBody) : List String :=
  (if statusTargetOk b then [] else [invalidStatusMsg])
  ++ (if reviewCommentsOk b then [] else [reviewCommentsMsg])

/-- The HTTP outcome of PUT /:id/status. -/
inductive ReviewResult
  | forbidden
  | validationErrors (errs : List String)
  | notFound
  | ok (e : Expense)
deriving Repr, DecidableEq

/-- The mutation the handler performs on the loaded document
(routes/expenses.js lines 203-209): status, reviewedBy and reviewedDate
are assigned unconditionally; `if (reviewComments)` assigns the (already
trimmed) comments only when they are truthy, i.e. present and non-empty. -/
def applyReview (e : Expense) (u : User) (target : String)
    (comments : Option String) (now : Int) : Expense :=
  { e with
    status := target
    reviewedBy := some u.uid
    reviewedDate := some now
    reviewComments :=
      match comments with
      | some c => if trimStr c ≠ "" then some (trimStr c) else e.reviewComments
      | none => e.reviewComments }

/-- The PUT /:id/status handler (routes/expenses.js lines 184-222):
authorize(Manager, Finance), validate, load, mutate, save. `save`
persists the mutated document in place of the loaded one. -/
def updateStatusHandler (db : List Expense) (u : User) (eid : Nat)
    (b : ReviewBody) (now : Int) : ReviewResult × List Expense :=
  if !roleAllowed ["Manager", "Finance"] u then (.forbidden, db)
  else if reviewValidationErrors b ≠ [] then
    (.validationErrors (reviewValidationErrors b), db)
  else
    match findById db eid with
    | none => (.notFound, db)
    | some e =>
      (.ok (applyReview e u (b.status.getD "") b.reviewComments now),
       db.map (fun x => if x.eid == eid then
         applyReview e u (b.status.getD "") b.reviewComments now else x))

/-! ## Administrative listing: GET / (routes/expenses.js lines 131-159) -/

/-- Query parameters of GET / . The numeric parameters arrive as strings
and are used numerically through JS coercion; the embedding carries the
coerced numbers. -/
structure ListQuery where
  status : Option String
  page : Option Nat
  limit : Option Nat
deriving Repr, DecidableEq

/-- Model of `if (status) query.status = status`: the filter is added only when the
status parameter is truthy (a present, non-empty string); the match is
exact equality. -/
def statusFilter (db : List Expense) (status : Option String) : List Expense :=
  match status with
  | some s => if s ≠ "" then db.filter (fun e => e.status == s) else db
  | none => db

/-- Insert into a list already sorted by descending `submittedDate`,
keeping earlier documents first among ties. -/
def insertByDateDesc (e : Expense) : List Expense → List Expense
  | [] => [e]
  | x :: xs =>
    if x.submittedDate < e.submittedDate then e :: x :: xs
    else x :: insertByDateDesc e xs

/-- Model of `.sort({ submittedDate: -1 })`: newest first. -/
def sortByDateDesc : List Expense → List Expense
  | [] => []
  | x :: xs => insertByDateDesc x (sortByDateDesc xs)

/-- The 200 response body of GET / . -/
structure ListResponse where
  expenses : List Expense
  totalPages : Nat
  currentPage : Nat
  total : Nat
deriving Repr, DecidableEq

/-- The HTTP outcome of GET / . -/
inductive ListResult
  | forbidden
  | ok (r : ListResponse)
deriving Repr, DecidableEq

/-- The GET / handler (routes/expenses.js lines 131-159): defaults
`page = 1`, `limit = 10`; filter by exact status; sort newest first;
`.skip((page-1)*limit).limit(limit)`; `total = countDocuments(query)`;
`totalPages = Math.ceil(total/limit)`. -/
def getAllExpensesHandler (db : List Expense) (u : User) (q : ListQuery) : ListResult :=
  if !roleAllowed ["Manager", "Finance"] u then .forbidden
  else
    let page := q.page.getD 1
    let limit := q.limit.getD 10
    let matched := statusFilter db q.status
    let pageItems := ((sortByDateDesc matched).drop ((page - 1) * limit)).take limit
    let total := matched.length
    .ok { expenses := pageItems
          totalPages := (total + limit - 1) / limit
          currentPage := page
          total := total }

/-! ## The exposed mutating operations -/

/-- The write operations the expense router exposes. GET endpoints do not
mutate the collection; the router exposes no delete or general update. -/
inductive Op
  | submit (u : User) (b : SubmitBody) (file : Option UploadedFile) (now : Int)
  | review (u : User) (eid : Nat) (b : ReviewBody) (now : Int)

/-- The collection after one exposed operation. -/
def applyOp (db : List Expense) : Op → List Expense
  | .submit u b file now => (submitHandler db u b file now).2
  | .review u eid b now => (updateStatusHandler db u eid b now).2

/-! ## Concrete fixtures for witnesses and counterexamples -/

def sampleFile : UploadedFile :=
  { filename := "invoice-1700000000000-123456789.pdf"
    originalname := "lunch.pdf"
    path := "uploads/invoices/invoice-1700000000000-123456789.pdf"
    size := 2048
    mimetype := "application/pdf" }

def sampleVendor : Vendor := { name := "Acme", contact := none, address := none }

/-- A fully valid multipart body with a structured vendor. -/
def sampleBody : SubmitBody :=
  { title := some "Lunch"
    category := some "Meals"
    amount := .num (mkRat 21 2)
    currency := none
    description := some "team lunch"
    vendor := .structured sampleVendor
    expenseDate := .valid 1700000000 }

/-- The same body but with the vendor serialized as a JSON string that
decodes successfully to a vendor with a non-empty name. -/
def serializedVendorBody : SubmitBody :=
  { sampleBody with
    vendor := .serialized "\x7b\"name\":\"Acme\"\x7d" (some sampleVendor) }

def employeeUser : User := { uid := "u1", role := "Employee" }

def managerUser : User := { uid := "m1", role := "Manager" }

/-- The document `Expense.create` produces for `sampleBody` submitted by
`employeeUser` at time 50 into an empty collection. -/
def pendingExpense : Expense :=
  { eid := 0
    title := "Lunch"
    category := "Meals"
    amount := mkRat 21 2
    currency := "USD"
    description := "team lunch"
    vendor := sampleVendor
    invoice :=
      { filename := sampleFile.filename, originalName := sampleFile.originalname,
        path := sampleFile.path, size := sampleFile.size,
        mimetype := sampleFile.mimetype }
    submittedBy := "u1"
    status := "Pending"
    reviewedBy := none
    reviewComments := none
    submittedDate := 50
    reviewedDate := none
    expenseDate := 1700000000 }

/-- A review request moving an expense to Rejected, with no comments. -/
def rejectBody : ReviewBody := { status := some "Rejected", reviewComments := none }

/-- A review request targeting Pending, which the validator refuses. -/
def pendingTargetBody : ReviewBody := { status := some "Pending", reviewComments := none }

/-- A review request approving with comments " ok " (blank-padded). -/
def approveBody : ReviewBody := { status := some "Approved", reviewComments := some " ok " }

/-- An already-approved expense on file. -/
def approvedExpense : Expense :=
  { pendingExpense with
    status := "Approved"
    reviewedBy := some "m0"
    reviewedDate := some 60 }

/-- A body violating both the title rule (absent) and the amount rule
(non-numeric). -/
def badBody : SubmitBody :=
  { sampleBody with title := none, amount := .notNum }

/-- A valid body whose currency is outside the store's enum. -/
def btcBody : SubmitBody := { sampleBody with currency := some "BTC" }

/-- A listing query filtering on Approved with default pagination. -/
def sampleQuery : ListQuery := { status := some "Approved", page := none, limit := none }

/-! ## Shared lemmas about the embedded operations -/

theorem findById_eid {db : List Expense} {eid : Nat} {e : Expense}
    (h : findById db eid = some e) : e.eid = eid := by
  have := List.find?_some h
  simpa using this

theorem findById_map_update (db : List Expense) (eid : Nat) (e e2 : Expense)
    (hfind : findById db eid = some e) (heid : e2.eid = eid) :
    findById (db.map fun x => if x.eid == eid then e2 else x) eid = some e2 := by
  induction db with
  | nil => simp [findById] at hfind
  | cons x xs ih =>
    unfold findById at hfind ⊢
    by_cases hx : (x.eid == eid) = true
    · simp only [List.map_cons, if_pos hx]
      rw [List.find?_cons_of_pos _ (by simpa using heid)]
    · simp only [List.map_cons, if_neg hx]
      rw [List.find?_cons_of_neg _ (by simpa using hx)] at hfind
      rw [List.find?_cons_of_neg _ (by simpa using hx)]
      exact ih hfind

/-- An empty accumulated error list means every review validator passed. -/
theorem reviewValidation_empty {b : ReviewBody}
    (h : reviewValidationErrors b = []) :
    statusTargetOk b = true ∧ reviewCommentsOk b = true := by
  unfold reviewValidationErrors at h
  by_cases h1 : statusTargetOk b <;> by_cases h2 : reviewCommentsOk b <;>
    simp [h1, h2] at h ⊢

/-- An empty accumulated error list means every submission validator
passed. -/
theorem submitValidation_empty {b : SubmitBody}
    (h : submitValidationErrors b = []) :
    titleOk b = true ∧ categoryOk b = true ∧ amountOk b = true ∧
    descriptionOk b = true ∧ vendorNameOk b = true ∧ expenseDateOk b = true := by
  unfold submitValidationErrors at h
  by_cases h1 : titleOk b <;> by_cases h2 : categoryOk b <;>
    by_cases h3 : amountOk b <;> by_cases h4 : descriptionOk b <;>
    by_cases h5 : vendorNameOk b <;> by_cases h6 : expenseDateOk b <;>
    simp [h1, h2, h3, h4, h5, h6] at h ⊢

/-- A member of the review-target list is a non-Pending status. -/
theorem reviewTargets_not_pending {s : String} (h : s ∈ reviewTargets) :
    s ≠ "Pending" := by
  intro hP
  subst hP
  exact absurd h (by decide)

/-- Unfolding of the review handler on the success path. -/
theorem updateStatusHandler_ok (db : List Expense) (u : User) (eid : Nat)
    (b : ReviewBody) (now : Int) (e : Expense)
    (hrole : roleAllowed ["Manager", "Finance"] u = true)
    (herrs : reviewValidationErrors b = [])
    (hfind : findById db eid = some e) :
    updateStatusHandler db u eid b now =
      (.ok (applyReview e u (b.status.getD "") b.reviewComments now),
       db.map (fun x => if x.eid == eid then
         applyReview e u (b.status.getD "") b.reviewComments now else x)) := by
  unfold updateStatusHandler
  rw [hrole]
  simp [herrs, hfind]

/-- The collection after a review request is either untouched or the
pointwise replacement of the reviewed document. -/
theorem updateStatus_db_shape (db : List Expense) (u : User) (eid : Nat)
    (b : ReviewBody) (now : Int) :
    (updateStatusHandler db u eid b now).2 = db ∨
    (statusTargetOk b = true ∧ ∃ e, findById db eid = some e ∧
      (updateStatusHandler db u eid b now).2 =
        db.map (fun x => if x.eid == eid then
          applyReview e u (b.status.getD "") b.reviewComments now else x)) := by
  unfold updateStatusHandler
  split
  · left; rfl
  · split
    · left; rfl
    · next herrs =>
      rw [not_ne_iff] at herrs
      split
      · left; rfl
      · next e hfind =>
        exact Or.inr ⟨(reviewValidation_empty herrs).1, e, hfind, rfl⟩

/-- The collection after a submission is either untouched or extended with
one newly built Pending document. -/
theorem submit_db_shape (db : List Expense) (u : User) (b : SubmitBody)
    (file : Option UploadedFile) (now : Int) :
    (submitHandler db u b file now).2 = db ∨
    ∃ e, (submitHandler db u b file now).2 = db ++ [e] ∧ e.status = "Pending" := by
  unfold submitHandler
  split
  · left; rfl
  · split
    · left; rfl
    · split
      · left; rfl
      · split
        · left; rfl
        · split
          · next e db2 hcreate =>
            unfold mongooseCreate at hcreate
            split at hcreate
            · exact absurd hcreate (by simp)
            · split at hcreate
              · rw [Except.ok.injEq, Prod.mk.injEq] at hcreate
                obtain ⟨he, hdb⟩ := hcreate
                right
                exact ⟨e, by rw [← hdb, he], by rw [← he]; rfl⟩
              · exact absurd hcreate (by simp)
          · left; rfl

/-! ## Claim theorems -/

/-- C2: the resource-ownership check (`canAccessExpense`) allows Manager
and Finance unconditionally (for every collection, so without consulting
the loaded expense); for any other role it loads the expense and answers
NotFound when it is absent, Forbidden when its `submittedBy` differs from
the caller's identifier, and allows access when they are equal. -/
theorem canAccessExpense_spec (db : List Expense) (u : User) (eid : Nat) :
    ((u.role = "Manager" ∨ u.role = "Finance") →
      canAccessExpense db u eid = .allow) ∧
    (u.role ≠ "Manager" → u.role ≠ "Finance" →
      (findById db eid = none → canAccessExpense db u eid = .notFound) ∧
      (∀ e, findById db eid = some e →
        (e.submittedBy ≠ u.uid → canAccessExpense db u eid = .forbidden) ∧
        (e.submittedBy = u.uid → canAccessExpense db u eid = .allow))) := by
  unfold canAccessExpense
  constructor
  · rintro (h | h) <;> simp [h]
  · intro h1 h2
    have hb : (u.role == "Manager" || u.role == "Finance") = false := by
      simp [h1, h2]
    rw [hb]
    simp only [Bool.false_eq_true, if_false]
    constructor
    · intro hn
      rw [hn]
    · intro e he
      constructor
      · intro hne
        simp [he, hne]
      · intro heq
        simp [he, heq]

/-- Witness for C2 at concrete inputs: a Manager is allowed on an empty
collection; an Employee gets NotFound there. -/
theorem canAccessExpense_spec_witness :
    canAccessExpense [] managerUser 0 = .allow ∧
    canAccessExpense [] employeeUser 0 = .notFound :=
  ⟨(canAccessExpense_spec [] managerUser 0).1 (Or.inl rfl),
   ((canAccessExpense_spec [] employeeUser 0).2 (by decide) (by decide)).1 rfl⟩

/-- C1 counterexample: the claim that Approved is terminal fails — a
review request targeting Rejected rewrites an Approved expense's status. -/
theorem approved_not_terminal_counterexample :
    approvedExpense.status = "Approved" ∧
    (updateStatusHandler [approvedExpense] managerUser 0 rejectBody 99).2 =
      [{ approvedExpense with
          status := "Rejected"
          reviewedBy := some "m1"
          reviewedDate := some 99 }] := by
  decide

/-- C1 amended: the status-review operation never consults the current
status. For every expense on file — whatever its status, including
Approved and Rejected — a review request by a Manager/Finance caller with
a target in {Approved, Rejected, Under Review} succeeds and sets the
stored status to the target, so Approved and Rejected are not terminal. -/
theorem review_sets_target_regardless_of_current_status (db : List Expense)
    (u : User) (eid : Nat) (b : ReviewBody) (now : Int) (e : Expense)
    (hrole : roleAllowed ["Manager", "Finance"] u = true)
    (herrs : reviewValidationErrors b = [])
    (hfind : findById db eid = some e) :
    ∃ e2, (updateStatusHandler db u eid b now).1 = .ok e2 ∧
      e2.status = b.status.getD "" ∧
      b.status.getD "" ∈ reviewTargets ∧
      findById (updateStatusHandler db u eid b now).2 eid = some e2 := by
  have h := updateStatusHandler_ok db u eid b now e hrole herrs hfind
  refine ⟨applyReview e u (b.status.getD "") b.reviewComments now,
    ?_, rfl, ?_, ?_⟩
  · rw [h]
  · have hok := (reviewValidation_empty herrs).1
    unfold statusTargetOk at hok
    simpa using hok
  · rw [h]
    exact findById_map_update db eid e _ hfind
      (by simpa [applyReview] using findById_eid hfind)

/-- Witness for C1's amended theorem: the concrete Approved expense is
moved to Rejected. -/
theorem review_sets_target_witness :
    ∃ e2,
      (updateStatusHandler [approvedExpense] managerUser 0 rejectBody 99).1 = .ok e2 ∧
      e2.status = rejectBody.status.getD "" ∧
      rejectBody.status.getD "" ∈ reviewTargets ∧
      findById (updateStatusHandler [approvedExpense] managerUser 0 rejectBody 99).2 0
        = some e2 :=
  review_sets_target_regardless_of_current_status [approvedExpense] managerUser 0
    rejectBody 99 approvedExpense (by decide) (by decide) (by decide)

/-- C3: a review request whose target status lies outside
{Approved, Rejected, Under Review} — for instance Pending — is answered
with the accumulated validation errors (HTTP 400), among them the
"Invalid status" failure, and the collection is returned unchanged, for
every collection: the validator runs before any load or mutation. -/
theorem invalid_status_rejected_before_load (db : List Expense) (u : User)
    (eid : Nat) (b : ReviewBody) (now : Int)
    (hrole : roleAllowed ["Manager", "Finance"] u = true)
    (hbad : reviewTargets.contains (b.status.getD "") = false) :
    (updateStatusHandler db u eid b now).1
      = .validationErrors (reviewValidationErrors b) ∧
    invalidStatusMsg ∈ reviewValidationErrors b ∧
    (updateStatusHandler db u eid b now).2 = db := by
  have hmem : invalidStatusMsg ∈ reviewValidationErrors b := by
    unfold reviewValidationErrors statusTargetOk
    rw [hbad]
    simp
  have hne : reviewValidationErrors b ≠ [] := by
    intro h
    rw [h] at hmem
    exact absurd hmem (List.not_mem_nil _)
  unfold updateStatusHandler
  rw [hrole]
  simp only [Bool.not_true, Bool.false_eq_true, if_false]
  rw [if_pos hne]
  exact ⟨rfl, hmem, rfl⟩

/-- Witness for C3: a Pending-targeted review of the concrete Approved
expense is rejected with the Invalid status failure and the stored record
is untouched. -/
theorem invalid_status_rejected_witness :
    (updateStatusHandler [approvedExpense] managerUser 0 pendingTargetBody 99).1
      = .validationErrors (reviewValidationErrors pendingTargetBody) ∧
    invalidStatusMsg ∈ reviewValidationErrors pendingTargetBody ∧
    (updateStatusHandler [approvedExpense] managerUser 0 pendingTargetBody 99).2
      = [approvedExpense] :=
  invalid_status_rejected_before_load [approvedExpense] managerUser 0
    pendingTargetBody 99 (by decide) (by decide)

/-- C4: every successful submission creates an Expense whose status is
exactly Pending, whose `submittedBy` is the caller's identifier, whose
`submittedDate` is the creation time, whose `reviewedBy`/`reviewedDate`
are absent, and whose invoice metadata copies the uploaded file's stored
name, original name, storage path, size and media type verbatim. -/
theorem submit_creates_pending (db : List Expense) (u : User) (b : SubmitBody)
    (f : UploadedFile) (now : Int) (e : Expense) (db2 : List Expense)
    (h : submitHandler db u b (some f) now = (.created e, db2)) :
    e.status = "Pending" ∧
    e.submittedBy = u.uid ∧
    e.submittedDate = now ∧
    e.reviewedBy = none ∧
    e.reviewedDate = none ∧
    e.invoice.filename = f.filename ∧
    e.invoice.originalName = f.originalname ∧
    e.invoice.path = f.path ∧
    e.invoice.size = f.size ∧
    e.invoice.mimetype = f.mimetype ∧
    db2 = db ++ [e] := by
  unfold submitHandler at h
  split at h
  · exact absurd h (by simp)
  · split at h
    · exact absurd h (by simp)
    · split at h
      · next hparse =>
        exact absurd hparse (by simp)
      · next vd hparse =>
        injection hparse with hfvd
        subst hfvd
        split at h
        · exact absurd h (by simp)
        · next vendorData hvp =>
          split at h
          · next e3 db3 hcreate =>
            rw [Prod.mk.injEq, SubmitResult.created.injEq] at h
            obtain ⟨he, hdb⟩ := h
            subst he
            subst hdb
            unfold mongooseCreate at hcreate
            split at hcreate
            · exact absurd hcreate (by simp)
            · split at hcreate
              · rw [Except.ok.injEq, Prod.mk.injEq] at hcreate
                obtain ⟨hE, hDB⟩ := hcreate
                subst hE
                subst hDB
                exact ⟨rfl, rfl, rfl, rfl, rfl, rfl, rfl, rfl, rfl, rfl, rfl⟩
              · exact absurd hcreate (by simp)
          · exact absurd h (by simp)

/-- Witness for C4: the concrete valid submission into an empty collection
creates exactly `pendingExpense`. -/
theorem submit_creates_pending_witness :
    pendingExpense.status = "Pending" ∧
    pendingExpense.submittedBy = employeeUser.uid ∧
    pendingExpense.submittedDate = 50 ∧
    pendingExpense.reviewedBy = none ∧
    pendingExpense.reviewedDate = none ∧
    pendingExpense.invoice.filename = sampleFile.filename ∧
    pendingExpense.invoice.originalName = sampleFile.originalname ∧
    pendingExpense.invoice.path = sampleFile.path ∧
    pendingExpense.invoice.size = sampleFile.size ∧
    pendingExpense.invoice.mimetype = sampleFile.mimetype ∧
    [pendingExpense] = [] ++ [pendingExpense] :=
  submit_creates_pending [] employeeUser sampleBody sampleFile 50
    pendingExpense [pendingExpense] (by decide)

/-- C5: no exposed operation ever moves a stored expense's status back to
Pending. A submission leaves every stored document untouched, and any
operation either leaves a document's status unchanged or (through the
review operation only) replaces it with a member of
{Approved, Rejected, Under Review}, a set that excludes Pending. -/
theorem status_never_reverts_to_pending (db : List Expense) (op : Op) :
    (∀ u b file now, op = .submit u b file now →
      (applyOp db op).take db.length = db) ∧
    List.Forall₂
      (fun e e2 : Expense => e2.eid = e.eid ∧
        (e2.status = e.status ∨
          (e2.status ∈ reviewTargets ∧ e2.status ≠ "Pending")))
      db ((applyOp db op).take db.length) := by
  cases op with
  | submit u b file now =>
    have htake : (applyOp db (.submit u b file now)).take db.length = db := by
      rcases submit_db_shape db u b file now with h | ⟨e, h, _⟩
      · show (submitHandler db u b file now).2.take db.length = db
        rw [h, List.take_length]
      · show (submitHandler db u b file now).2.take db.length = db
        rw [h]
        exact List.take_left db [e]
    refine ⟨fun _ _ _ _ _ => htake, ?_⟩
    rw [htake]
    exact List.forall₂_same.mpr (fun x _ => ⟨rfl, Or.inl rfl⟩)
  | review u eid b now =>
    constructor
    · intro u2 b2 f2 n2 heq
      exact absurd heq (by simp)
    · rcases updateStatus_db_shape db u eid b now with h | ⟨hok, e, hfind, h⟩
      · show List.Forall₂ _ db ((updateStatusHandler db u eid b now).2.take db.length)
        rw [h, List.take_length]
        exact List.forall₂_same.mpr (fun x _ => ⟨rfl, Or.inl rfl⟩)
      · show List.Forall₂ _ db ((updateStatusHandler db u eid b now).2.take db.length)
        rw [h]
        rw [show db.length = (db.map (fun x => if x.eid == eid then
          applyReview e u (b.status.getD "") b.reviewComments now else x)).length
          from (List.length_map _ _).symm]
        rw [List.take_length, List.forall₂_map_right_iff]
        refine List.forall₂_same.mpr (fun x _ => ?_)
        by_cases hx : (x.eid == eid) = true
        · rw [if_pos hx]
          have hmem : b.status.getD "" ∈ reviewTargets := by
            unfold statusTargetOk at hok
            simpa using hok
          have h1 : e.eid = eid := findById_eid hfind
          have h2 : x.eid = eid := by simpa using hx
          exact ⟨by simp [applyReview, h1, h2],
            Or.inr ⟨hmem, reviewTargets_not_pending hmem⟩⟩
        · rw [if_neg hx]
          exact ⟨rfl, Or.inl rfl⟩

/-- Witness for C5: a concrete submission leaves the (empty) stored prefix
untouched. -/
theorem status_never_reverts_witness :
    (applyOp [] (.submit employeeUser sampleBody (some sampleFile) 50)).take
      (List.length ([] : List Expense)) = [] :=
  (status_never_reverts_to_pending []
      (.submit employeeUser sampleBody (some sampleFile) 50)).1
    employeeUser sampleBody (some sampleFile) 50 rfl

/-- C6: a successful review sets status, reviewedBy = caller and
reviewedDate = now together; it stores (trimmed) review comments exactly
when the request supplies non-blank ones and otherwise leaves the existing
comments in place; every other field of the document is unchanged. -/
theorem review_effect_and_frame (db : List Expense) (u : User) (eid : Nat)
    (b : ReviewBody) (now : Int) (e : Expense)
    (hrole : roleAllowed ["Manager", "Finance"] u = true)
    (herrs : reviewValidationErrors b = [])
    (hfind : findById db eid = some e) :
    ∃ e2, (updateStatusHandler db u eid b now).1 = .ok e2 ∧
      e2.status = b.status.getD "" ∧
      e2.reviewedBy = some u.uid ∧
      e2.reviewedDate = some now ∧
      (∀ c, b.reviewComments = some c → trimStr c ≠ "" →
        e2.reviewComments = some (trimStr c)) ∧
      (b.reviewComments = none → e2.reviewComments = e.reviewComments) ∧
      (∀ c, b.reviewComments = some c → trimStr c = "" →
        e2.reviewComments = e.reviewComments) ∧
      e2.title = e.title ∧ e2.category = e.category ∧ e2.amount = e.amount ∧
      e2.currency = e.currency ∧ e2.description = e.description ∧
      e2.vendor = e.vendor ∧ e2.invoice = e.invoice ∧
      e2.submittedBy = e.submittedBy ∧ e2.submittedDate = e.submittedDate ∧
      e2.expenseDate = e.expenseDate ∧ e2.eid = e.eid := by
  have h := updateStatusHandler_ok db u eid b now e hrole herrs hfind
  refine ⟨applyReview e u (b.status.getD "") b.reviewComments now, by rw [h],
    rfl, rfl, rfl, ?_, ?_, ?_, rfl, rfl, rfl, rfl, rfl, rfl, rfl, rfl, rfl, rfl, rfl⟩
  · intro c hc hne
    simp [applyReview, hc, hne]
  · intro hc
    simp [applyReview, hc]
  · intro c hc hempty
    simp [applyReview, hc, hempty]

/-- Witness for C6 at concrete inputs: approving the pending expense with
comments " ok " stores status Approved, the reviewer, the review time and
the trimmed comments. -/
theorem review_effect_witness :
    ∃ e2, (updateStatusHandler [pendingExpense] managerUser 0 approveBody 99).1
        = .ok e2 ∧
      e2.status = approveBody.status.getD "" ∧
      e2.reviewedBy = some managerUser.uid ∧
      e2.reviewedDate = some 99 ∧
      (∀ c, approveBody.reviewComments = some c → trimStr c ≠ "" →
        e2.reviewComments = some (trimStr c)) ∧
      (approveBody.reviewComments = none →
        e2.reviewComments = pendingExpense.reviewComments) ∧
      (∀ c, approveBody.reviewComments = some c → trimStr c = "" →
        e2.reviewComments = pendingExpense.reviewComments) ∧
      e2.title = pendingExpense.title ∧ e2.category = pendingExpense.category ∧
      e2.amount = pendingExpense.amount ∧ e2.currency = pendingExpense.currency ∧
      e2.description = pendingExpense.description ∧
      e2.vendor = pendingExpense.vendor ∧ e2.invoice = pendingExpense.invoice ∧
      e2.submittedBy = pendingExpense.submittedBy ∧
      e2.submittedDate = pendingExpense.submittedDate ∧
      e2.expenseDate = pendingExpense.expenseDate ∧ e2.eid = pendingExpense.eid :=
  review_effect_and_frame [pendingExpense] managerUser 0 approveBody 99
    pendingExpense (by decide) (by decide) (by decide)

/-- C7: a submission failing validation is answered with the full
accumulated error list — each violated field rule contributes its message,
whatever the other rules did; a missing invoice file is answered with the
distinct missingFile shape (only when validation passed, and that shape is
distinct from the field-error shape); a persistence failure surfaces as
the generic server error. -/
theorem submit_error_reporting (db : List Expense) (u : User) (b : SubmitBody)
    (file : Option UploadedFile) (now : Int)
    (hrole : roleAllowed ["Employee"] u = true) :
    (submitValidationErrors b ≠ [] →
      (submitHandler db u b file now).1
        = .validationErrors (submitValidationErrors b)) ∧
    (titleOk b = false → titleMsg ∈ submitValidationErrors b) ∧
    (categoryOk b = false → categoryMsg ∈ submitValidationErrors b) ∧
    (amountOk b = false → amountMsg ∈ submitValidationErrors b) ∧
    (descriptionOk b = false → descriptionMsg ∈ submitValidationErrors b) ∧
    (vendorNameOk b = false → vendorNameMsg ∈ submitValidationErrors b) ∧
    (expenseDateOk b = false → expenseDateMsg ∈ submitValidationErrors b) ∧
    (submitValidationErrors b = [] → file = none →
      (submitHandler db u b file now).1 = .missingFile) ∧
    (∀ errs, (SubmitResult.missingFile : SubmitResult)
      ≠ .validationErrors errs) ∧
    (∀ f vd, file = some f → submitValidationErrors b = [] →
      vendorParse b.vendor = .ok vd →
      mongooseCreate db (submitPayload u b f vd) now = .error () →
      (submitHandler db u b file now).1 = .serverError) := by
  refine ⟨?_, ?_, ?_, ?_, ?_, ?_, ?_, ?_, ?_, ?_⟩
  · intro hne
    unfold submitHandler
    rw [hrole]
    simp only [Bool.not_true, Bool.false_eq_true, if_false]
    rw [if_pos hne]
  · intro hf
    unfold submitValidationErrors
    rw [hf]
    simp
  · intro hf
    unfold submitValidationErrors
    rw [hf]
    simp
  · intro hf
    unfold submitValidationErrors
    rw [hf]
    simp
  · intro hf
    unfold submitValidationErrors
    rw [hf]
    simp
  · intro hf
    unfold submitValidationErrors
    rw [hf]
    simp
  · intro hf
    unfold submitValidationErrors
    rw [hf]
    simp
  · intro h0 hf
    subst hf
    unfold submitHandler
    rw [hrole]
    simp [h0]
  · intro errs
    simp
  · intro f vd hf h0 hvp hmc
    subst hf
    unfold submitHandler
    rw [hrole]
    simp [h0, hvp, hmc]

/-- Witness for C7: the doubly-invalid body is answered with both the
title and the amount failure; a missing file on a valid body gets the
missingFile shape; the out-of-enum currency body triggers the generic
server error on persistence. -/
theorem submit_error_reporting_witness :
    titleMsg ∈ submitValidationErrors badBody ∧
    amountMsg ∈ submitValidationErrors badBody ∧
    (submitHandler [] employeeUser badBody (some sampleFile) 0).1
      = .validationErrors (submitValidationErrors badBody) ∧
    (submitHandler [] employeeUser sampleBody none 0).1 = .missingFile ∧
    (submitHandler [] employeeUser btcBody (some sampleFile) 0).1
      = .serverError := by
  refine ⟨?_, ?_, ?_, ?_, ?_⟩
  · exact (submit_error_reporting [] employeeUser badBody (some sampleFile) 0
      (by decide)).2.1 (by decide)
  · exact (submit_error_reporting [] employeeUser badBody (some sampleFile) 0
      (by decide)).2.2.2.1 (by decide)
  · exact (submit_error_reporting [] employeeUser badBody (some sampleFile) 0
      (by decide)).1 (by decide)
  · exact (submit_error_reporting [] employeeUser sampleBody none 0
      (by decide)).2.2.2.2.2.2.2.1 (by decide) rfl
  · exact (submit_error_reporting [] employeeUser btcBody (some sampleFile) 0
      (by decide)).2.2.2.2.2.2.2.2.2 sampleFile (some sampleVendor) rfl
      (by decide) rfl rfl

/-- C8 (code bug): a submission whose vendor arrives as a serialized JSON
string is rejected at the field-validation stage with "Vendor name is
required", even though the string decodes to a vendor with a non-empty
trimmed name — the `vendor.name` validator reads the path `vendor.name`
on the string value and finds nothing, so the handler's JSON.parse branch
is unreachable and the serialized form is never accepted; the collection
is untouched. -/
theorem serialized_vendor_never_accepted :
    vendorParse serializedVendorBody.vendor = .ok (some sampleVendor) ∧
    trimStr sampleVendor.name ≠ "" ∧
    (submitHandler [] employeeUser serializedVendorBody (some sampleFile) 0).1
      = .validationErrors [vendorNameMsg] ∧
    (submitHandler [] employeeUser serializedVendorBody (some sampleFile) 0).2
      = [] :=
  ⟨rfl, by decide, by decide, rfl⟩

/-! Sorting lemmas for the administrative listing. -/

theorem insertByDateDesc_perm (e : Expense) (l : List Expense) :
    (insertByDateDesc e l).Perm (e :: l) := by
  induction l with
  | nil => exact List.Perm.refl _
  | cons x xs ih =>
    unfold insertByDateDesc
    split
    · exact List.Perm.refl _
    · exact (List.Perm.cons x ih).trans (List.Perm.swap e x xs)

theorem sortByDateDesc_perm (l : List Expense) : (sortByDateDesc l).Perm l := by
  induction l with
  | nil => exact List.Perm.refl _
  | cons x xs ih =>
    unfold sortByDateDesc
    exact (insertByDateDesc_perm x (sortByDateDesc xs)).trans (List.Perm.cons x ih)

theorem insertByDateDesc_sorted (e : Expense) (l : List Expense)
    (h : l.Pairwise (fun a b => b.submittedDate ≤ a.submittedDate)) :
    (insertByDateDesc e l).Pairwise
      (fun a b => b.submittedDate ≤ a.submittedDate) := by
  induction l with
  | nil => simp [insertByDateDesc]
  | cons x xs ih =>
    rw [List.pairwise_cons] at h
    obtain ⟨hx, hxs⟩ := h
    unfold insertByDateDesc
    split
    · next hlt =>
      rw [List.pairwise_cons]
      refine ⟨?_, ?_⟩
      · intro y hy
        rcases List.mem_cons.mp hy with rfl | hy2
        · exact le_of_lt hlt
        · exact le_trans (hx y hy2) (le_of_lt hlt)
      · rw [List.pairwise_cons]
        exact ⟨hx, hxs⟩
    · next hnlt =>
      rw [List.pairwise_cons]
      refine ⟨?_, ih hxs⟩
      intro y hy
      have hy2 : y ∈ e :: xs := (insertByDateDesc_perm e xs).mem_iff.mp hy
      rcases List.mem_cons.mp hy2 with rfl | hy3
      · exact not_lt.mp hnlt
      · exact hx y hy3

theorem sortByDateDesc_sorted (l : List Expense) :
    (sortByDateDesc l).Pairwise
      (fun a b => b.submittedDate ≤ a.submittedDate) := by
  induction l with
  | nil => simp [sortByDateDesc]
  | cons x xs ih => exact insertByDateDesc_sorted x _ ih

/-- C9: for a Manager/Finance caller with a positive page size, the
administrative listing filters by exact status match, reports the total
matching count, serves the page window of size `limit` starting after
`(page-1)*limit` records of the date-descending ordering of the matching
records, echoes the current page, and reports `totalPages` as the exact
ceiling of `total / limit` (least `m` with `total ≤ m * limit`). -/
theorem admin_listing_spec (db : List Expense) (u : User) (q : ListQuery)
    (hrole : roleAllowed ["Manager", "Finance"] u = true)
    (hlimit : 1 ≤ q.limit.getD 10) :
    ∃ r, getAllExpensesHandler db u q = .ok r ∧
      r.total = (statusFilter db q.status).length ∧
      (∀ s, q.status = some s → s ≠ "" → ∀ e ∈ r.expenses, e.status = s) ∧
      (∃ sorted : List Expense, sorted.Perm (statusFilter db q.status) ∧
        sorted.Pairwise (fun a b => b.submittedDate ≤ a.submittedDate) ∧
        r.expenses = (sorted.drop
          ((q.page.getD 1 - 1) * q.limit.getD 10)).take (q.limit.getD 10)) ∧
      r.expenses.length ≤ q.limit.getD 10 ∧
      r.currentPage = q.page.getD 1 ∧
      r.total ≤ r.totalPages * q.limit.getD 10 ∧
      (∀ m, r.total ≤ m * q.limit.getD 10 → r.totalPages ≤ m) := by
  unfold getAllExpensesHandler
  rw [hrole]
  simp only [Bool.not_true, Bool.false_eq_true, if_false]
  refine ⟨_, rfl, rfl, ?_, ?_, ?_, rfl, ?_, ?_⟩
  · intro s hs hne e he
    rw [hs] at he
    have h1 : e ∈ sortByDateDesc (statusFilter db (some s)) :=
      List.mem_of_mem_drop (List.mem_of_mem_take he)
    have h2 : e ∈ List.filter (fun x => x.status == s) db := by
      have h3 := (sortByDateDesc_perm _).mem_iff.mp h1
      unfold statusFilter at h3
      simpa [hne] using h3
    simpa using (List.of_mem_filter h2)
  · exact ⟨sortByDateDesc (statusFilter db q.status),
      sortByDateDesc_perm _, sortByDateDesc_sorted _, rfl⟩
  · exact List.length_take_le _ _
  · rw [← Nat.ceilDiv_eq_add_pred_div]
    have h2 : (statusFilter db q.status).length
        ≤ q.limit.getD 10 • ((statusFilter db q.status).length ⌈/⌉ q.limit.getD 10) :=
      le_smul_ceilDiv (by omega)
    simpa [Nat.mul_comm, smul_eq_mul] using h2
  · intro m hm
    rw [← Nat.ceilDiv_eq_add_pred_div]
    rw [ceilDiv_le_iff_le_smul (show 0 < q.limit.getD 10 by omega)]
    rw [smul_eq_mul, Nat.mul_comm]
    exact hm

/-- Witness for C9: listing the one-record collection filtered on
Approved with default pagination. -/
theorem admin_listing_witness :
    ∃ r, getAllExpensesHandler [approvedExpense] managerUser sampleQuery = .ok r ∧
      r.total = (statusFilter [approvedExpense] sampleQuery.status).length ∧
      (∀ s, sampleQuery.status = some s → s ≠ "" →
        ∀ e ∈ r.expenses, e.status = s) ∧
      (∃ sorted : List Expense,
        sorted.Perm (statusFilter [approvedExpense] sampleQuery.status) ∧
        sorted.Pairwise (fun a b => b.submittedDate ≤ a.submittedDate) ∧
        r.expenses = (sorted.drop
          ((sampleQuery.page.getD 1 - 1) * sampleQuery.limit.getD 10)).take
            (sampleQuery.limit.getD 10)) ∧
      r.expenses.length ≤ sampleQuery.limit.getD 10 ∧
      r.currentPage = sampleQuery.page.getD 1 ∧
      r.total ≤ r.totalPages * sampleQuery.limit.getD 10 ∧
      (∀ m, r.total ≤ m * sampleQuery.limit.getD 10 → r.totalPages ≤ m) :=
  admin_listing_spec [approvedExpense] managerUser sampleQuery
    (by decide) (by decide)

/-- Shape of any successful creation: the stored vendor came through
`vendorParse` as a structured value and the new document is the built one,
appended to the collection. -/
theorem submit_created_shape (db : List Expense) (u : User) (b : SubmitBody)
    (f : UploadedFile) (now : Int) (e : Expense) (db2 : List Expense)
    (h : submitHandler db u b (some f) now = (.created e, db2)) :
    ∃ v, vendorParse b.vendor = .ok (some v) ∧
      e = buildExpense (submitPayload u b f (some v)) v (freshId db) now ∧
      db2 = db ++ [e] := by
  unfold submitHandler at h
  split at h
  · exact absurd h (by simp)
  · split at h
    · exact absurd h (by simp)
    · split at h
      · next hparse =>
        exact absurd hparse (by simp)
      · next vd2 hparse =>
        injection hparse with hfvd
        subst hfvd
        split at h
        · exact absurd h (by simp)
        · next vendorData hvp =>
          split at h
          · next e3 db3 hcreate =>
            rw [Prod.mk.injEq, SubmitResult.created.injEq] at h
            obtain ⟨he, hdb⟩ := h
            subst he
            subst hdb
            unfold mongooseCreate at hcreate
            split at hcreate
            · exact absurd hcreate (by simp)
            · next v hvd =>
              split at hcreate
              · rw [Except.ok.injEq, Prod.mk.injEq] at hcreate
                obtain ⟨hE, hDB⟩ := hcreate
                subst hE
                subst hDB
                have hveq : vendorData = some v := hvd
                subst hveq
                exact ⟨v, hvp, rfl, rfl⟩
              · exact absurd hcreate (by simp)
          · exact absurd h (by simp)

/-- C10: the submission validator list never inspects the currency field;
a validation-passing payload whose currency lies outside the store enum
reaches `Expense.create`, whose schema rejection is caught and returned as
the generic 500 server error (not a 400 validation answer); and an
omitted currency defaults to USD on the created document. -/
theorem currency_not_validated (db : List Expense) (u : User) (b : SubmitBody)
    (f : UploadedFile) (now : Int) (c : String)
    (hrole : roleAllowed ["Employee"] u = true) :
    (∀ copt, submitValidationErrors { b with currency := copt }
      = submitValidationErrors b) ∧
    (submitValidationErrors b = [] → b.currency = some c →
      currencyEnum.contains c = false →
      (submitHandler db u b (some f) now).1 = .serverError) ∧
    (b.currency = none → ∀ e db2,
      submitHandler db u b (some f) now = (.created e, db2) →
      e.currency = "USD") := by
  refine ⟨fun copt => rfl, ?_, ?_⟩
  · intro h0 hc hcur
    have hvOk := (submitValidation_empty h0).2.2.2.2.1
    cases hv : b.vendor with
    | structured v =>
      unfold submitHandler
      rw [hrole]
      simp only [Bool.not_true, Bool.false_eq_true, if_false]
      rw [if_neg (by simp [h0])]
      rw [hv]
      have hmc : mongooseCreate db (submitPayload u b f (some v)) now
          = .error () := by
        unfold mongooseCreate
        have hcur2 : c ∉ currencyEnum := by simpa using hcur
        have hbad : schemaValid
            (buildExpense (submitPayload u b f (some v)) v (freshId db) now)
            = false := by
          unfold schemaValid buildExpense submitPayload
          simp [hc, hcur2]
        rw [show (submitPayload u b f (some v)).vendor = some v from rfl]
        simp [hbad]
      simp [vendorParse, hmc]
    | serialized s p =>
      have hnone : vendorNameField b.vendor = none := by simp [hv, vendorNameField]
      unfold vendorNameOk at hvOk
      rw [hnone] at hvOk
      exact absurd hvOk (by decide)
    | absent =>
      have hnone : vendorNameField b.vendor = none := by simp [hv, vendorNameField]
      unfold vendorNameOk at hvOk
      rw [hnone] at hvOk
      exact absurd hvOk (by decide)
  · intro hc e db2 h
    obtain ⟨v, hvp, he, hdb⟩ := submit_created_shape db u b f now e db2 h
    rw [he]
    show b.currency.getD "USD" = "USD"
    rw [hc]
    rfl

/-- Witness for C10: the BTC-currency body passes validation unchanged,
is answered with the server error, and the currency-omitting body creates
a USD document. -/
theorem currency_not_validated_witness :
    submitValidationErrors { sampleBody with currency := some "BTC" }
      = submitValidationErrors sampleBody ∧
    (submitHandler [] employeeUser btcBody (some sampleFile) 0).1
      = .serverError ∧
    pendingExpense.currency = "USD" := by
  refine ⟨?_, ?_, ?_⟩
  · exact (currency_not_validated [] employeeUser sampleBody sampleFile 0 "BTC"
      (by decide)).1 (some "BTC")
  · exact (currency_not_validated [] employeeUser btcBody sampleFile 0 "BTC"
      (by decide)).2.1 (by decide) rfl (by decide)
  · exact (currency_not_validated [] employeeUser sampleBody sampleFile 50 "BTC"
      (by decide)).2.2 rfl pendingExpense [pendingExpense] (by decide)

end ExpenseApp
